import Mathlib

/-!
# ServerRequest (server_request.cpp)

A shallow embedding of `ServerRequest::MakeRequest` and
`ServerRequest::GetTempTransport`.

* A transport pointer `ITransport*` is `Option ITransport`: `none` is the null
  pointer `0`, `some t` a pointer to the object `t`, whose identity is `t.addr`.
* Calls into the collaborators that the file only uses (`HTTPSRequest`,
  `TransportRegistry::NewAll`, `delete`) are recorded, in program order, in a
  trace of `Event`s.
* Calling a member function through a null pointer is the fault
  `Fault.nullDereference`.
* The source text of `MakeRequest` is cut off inside the one call of its
  connected branch, after the second argument (line 91). The arguments that
  follow are not derived from anything: they are the parameter `rest` of the
  model, and nothing here says what they are.
-/

namespace ServerRequest

/-- Session metadata, as far as this file reads it (`GetServerAddress`). -/
structure SessionInfo where
  serverAddress : String
deriving DecidableEq, Repr

/-- A transport object behind an `ITransport*`. `addr` is the identity of the
heap object; the other fields are the three member functions the file calls. -/
structure ITransport where
  addr : Nat
  GetTransportProtocolName : String
  IsConnected : Bool
  IsHandshakeRequired : SessionInfo → Bool

/-- Observable calls into the collaborators of this file. -/
inductive Event where
  /-- A call of `HTTPSRequest::MakeRequest`, with the two arguments that the source
  shows: the cancel flag and the address. -/
  | httpsRequest (cancel : Bool) (address : String)
  /-- A call of `TransportRegistry::NewAll`. -/
  | newAll
  /-- The statement `delete p` for the transport object with identity `addr`. -/
  | delete (addr : Nat)
deriving DecidableEq, Repr

/-- Faults of the C++ code that end the call without a result. -/
inductive Fault where
  | nullDereference
deriving DecidableEq, Repr

/-- The parameters of `MakeRequest` after `sessionInfo` (lines 72-77). `response`
is the content of the caller's string on entry. -/
structure RequestArgs where
  requestPath : String
  response : String
  useLocalProxy : Bool
  additionalHeaders : Option String
  additionalData : Option (List Nat)
  additionalDataLength : Nat
deriving DecidableEq, Repr

/-- The arguments of the call of `HTTPSRequest::MakeRequest` that follow the
server address. The source text ends there (line 91), so the model takes their
values as given and reads nothing into them. -/
structure CutOffArguments where
  values : List String
deriving DecidableEq, Repr

/-- What surrounds one call: the HTTPS client (`httpsrequest.h`, not part of this
file) and the transports that `TransportRegistry::NewAll` constructs
(`transport_registry.h`, not part of this file), in the order it appends them.
The client is a function of the two arguments the source shows, `cancel` and the
server address, of the arguments that are cut off, and of the content of the
caller's `response` before the call; it yields the `bool` it returns and the
content of `response` afterwards (the same content if it does not write it). -/
structure World where
  httpsRequest : Bool → String → CutOffArguments → String → Bool × String
  registry : List ITransport

/-- What a call of `MakeRequest` leaves behind: the returned `bool`, the content
of `response`, and the collaborator calls made. -/
structure Outcome where
  ret : Bool
  response : String
  trace : List Event
deriving DecidableEq, Repr

/-- `ServerRequest::MakeRequest` (lines 68-95).

`transportConnected` is `currentTransport && currentTransport->IsConnected()`.
In the connected branch the one statement is
`return httpsRequest.MakeRequest(cancel, <server address>,` and there the source
text breaks off: `rest` stands for the arguments that would follow. Which port
they name, and whether `useLocalProxy` (line 74) is among them, the source does
not show, and the model does not say. Otherwise the body ends in `return true;`,
which reads none of the parameters. -/
def MakeRequest (w : World) (cancel : Bool) (currentTransport : Option ITransport)
    (sessionInfo : SessionInfo) (args : RequestArgs) (rest : CutOffArguments) : Outcome :=
  let transportConnected : Bool :=
    match currentTransport with
    | none => false
    | some t => t.IsConnected
  if transportConnected then
    let r := w.httpsRequest cancel sessionInfo.serverAddress rest args.response
    { ret := r.1
      response := r.2
      trace := [Event.httpsRequest cancel sessionInfo.serverAddress] }
  else
    { ret := true, response := args.response, trace := [] }

/-- The `for` loop of `GetTempTransport` (lines 111-126) over the remaining
elements of `all_transports`, with the local `tempTransport` and the trace so
far. The condition reads `currentTransport->GetTransportProtocolName()` in every
iteration, which faults when `currentTransport` is null. -/
def GetTempTransport.loop (currentTransport : Option ITransport) (sessionInfo : SessionInfo) :
    List ITransport → Option ITransport → List Event →
      Except Fault (Option ITransport × List Event)
  | [], tempTransport, trace => Except.ok (tempTransport, trace)
  | it :: rest, tempTransport, trace =>
    match currentTransport with
    | none => Except.error Fault.nullDereference
    | some cur =>
      if (it.GetTransportProtocolName != cur.GetTransportProtocolName
          && !it.IsHandshakeRequired sessionInfo) then
        GetTempTransport.loop currentTransport sessionInfo rest (some it) trace
      else
        GetTempTransport.loop currentTransport sessionInfo rest tempTransport
          (trace ++ [Event.delete it.addr])

/-- `ServerRequest::GetTempTransport` (lines 102-129): `NewAll` fills
`all_transports`, `tempTransport` starts as `0`, the loop runs, and
`tempTransport` is returned. The result pairs the returned pointer with the
trace of the call. -/
def GetTempTransport (w : World) (currentTransport : Option ITransport)
    (sessionInfo : SessionInfo) : Except Fault (Option ITransport × List Event) :=
  GetTempTransport.loop currentTransport sessionInfo w.registry none [Event.newAll]

/-- The eligibility predicate for a candidate `c`, as the specification words it:
the protocol name differs from the current transport's, and no handshake is
required for the session info. -/
def eligible (cur : ITransport) (sessionInfo : SessionInfo) (c : ITransport) : Prop :=
  c.GetTransportProtocolName ≠ cur.GetTransportProtocolName ∧
    c.IsHandshakeRequired sessionInfo = false

instance (cur : ITransport) (sessionInfo : SessionInfo) (c : ITransport) :
    Decidable (eligible cur sessionInfo c) := by
  unfold eligible; infer_instance

/-- The identities of the objects deleted in a trace, in order. -/
def released : List Event → List Nat
  | [] => []
  | Event.delete a :: es => a :: released es
  | _ :: es => released es

/-- Number of pointers handed back to the caller: 0 for the null pointer, else 1. -/
def returnedCount (p : Option ITransport) : Nat :=
  match p with
  | none => 0
  | some _ => 1

/-! ## The loop of `GetTempTransport` in closed form -/

theorem released_map_delete (l : List ITransport) :
    released (l.map (fun c => Event.delete c.addr)) = l.map (fun c => c.addr) := by
  induction l with
  | nil => simp [released]
  | cons c cs ih => simp [released, ih]

/-- With a non-null current transport the loop always finishes: the pointer it
leaves in `tempTransport` is the last eligible element, if any, else the old
value, and exactly the ineligible elements are deleted, in order. -/
theorem loop_some (cur : ITransport) (si : SessionInfo) (l : List ITransport) :
    ∀ (temp : Option ITransport) (tr : List Event),
      GetTempTransport.loop (some cur) si l temp tr =
        Except.ok (((l.filter (fun c => decide (eligible cur si c))).getLast?).or temp,
          tr ++ (l.filter (fun c => decide (¬ eligible cur si c))).map
            (fun c => Event.delete c.addr)) := by
  induction l with
  | nil => intro temp tr; simp [GetTempTransport.loop]
  | cons c cs ih =>
    intro temp tr
    by_cases h : eligible cur si c
    · have hc : (c.GetTransportProtocolName != cur.GetTransportProtocolName
          && !c.IsHandshakeRequired si) = true := by
        obtain ⟨h1, h2⟩ := h
        simp [h1, h2]
      simp only [GetTempTransport.loop, hc, if_true, ih]
      simp only [List.filter_cons, h, decide_True, decide_False, not_true_eq_false, if_true]
      congr 2
      rw [List.getLast?_cons]
      cases (List.filter (fun c => decide (eligible cur si c)) cs).getLast? <;> simp
    · have hc : (c.GetTransportProtocolName != cur.GetTransportProtocolName
          && !c.IsHandshakeRequired si) = false := by
        unfold eligible at h
        by_cases h1 : c.GetTransportProtocolName = cur.GetTransportProtocolName
        · simp [h1]
        · have h2 : c.IsHandshakeRequired si = true := by
            cases hb : c.IsHandshakeRequired si
            · exact absurd ⟨h1, hb⟩ h
            · rfl
          simp [h2]
      simp only [GetTempTransport.loop, hc, ih]
      simp [List.filter_cons, h]

/-- The result of `GetTempTransport` for a non-null current transport. -/
theorem GetTempTransport_some (w : World) (cur : ITransport) (si : SessionInfo) :
    GetTempTransport w (some cur) si =
      Except.ok ((w.registry.filter (fun c => decide (eligible cur si c))).getLast?,
        Event.newAll :: (w.registry.filter (fun c => decide (¬ eligible cur si c))).map
          (fun c => Event.delete c.addr)) := by
  simp [GetTempTransport, loop_some]

/-- The objects deleted by `GetTempTransport` for a non-null current transport. -/
theorem released_GetTempTransport (w : World) (cur : ITransport) (si : SessionInfo) :
    released (Event.newAll :: (w.registry.filter (fun c => decide (¬ eligible cur si c))).map
        (fun c => Event.delete c.addr)) =
      (w.registry.filter (fun c => decide (¬ eligible cur si c))).map (fun c => c.addr) := by
  simp [released, released_map_delete]

/-- The last element of a filtered list splits the list: it satisfies the
predicate and nothing after it does. -/
theorem getLast?_filter_split {α : Type} (p : α → Bool) (l : List α) (t : α)
    (h : (l.filter p).getLast? = some t) :
    ∃ pre post, l = pre ++ t :: post ∧ p t = true ∧ ∀ u ∈ post, p u = false := by
  induction l using List.reverseRecOn with
  | nil => simp at h
  | append_singleton xs x ih =>
    by_cases hx : p x = true
    · have hf : (xs ++ [x]).filter p = xs.filter p ++ [x] := by
        simp [List.filter_append, hx]
      rw [hf, List.getLast?_concat] at h
      have hxt : x = t := Option.some.inj h
      subst hxt
      exact ⟨xs, [], by simp, hx, by simp⟩
    · have hf : (xs ++ [x]).filter p = xs.filter p := by
        simp [List.filter_append, hx]
      rw [hf] at h
      obtain ⟨pre, post, hl, ht, hpost⟩ := ih h
      refine ⟨pre, post ++ [x], by simp [hl], ht, ?_⟩
      intro u hu
      rcases List.mem_append.mp hu with hu | hu
      · exact hpost u hu
      · simp at hu; subst hu; simpa using hx

/-! ## Sample data -/

/-- A session with a server address. -/
def sampleSession : SessionInfo := { serverAddress := "192.0.2.10" }

/-- A current transport with protocol `VPN`, not connected. -/
def vpnDown : ITransport :=
  { addr := 10, GetTransportProtocolName := "VPN", IsConnected := false,
    IsHandshakeRequired := fun _ => true }

/-- A candidate with the protocol of the current transport. -/
def candVpn : ITransport :=
  { addr := 1, GetTransportProtocolName := "VPN", IsConnected := false,
    IsHandshakeRequired := fun _ => true }

/-- A candidate with protocol `SSH` that needs no handshake. -/
def candSsh : ITransport :=
  { addr := 2, GetTransportProtocolName := "SSH", IsConnected := false,
    IsHandshakeRequired := fun _ => false }

/-- A candidate with protocol `OSSH` that needs no handshake. -/
def candOssh : ITransport :=
  { addr := 3, GetTransportProtocolName := "OSSH", IsConnected := false,
    IsHandshakeRequired := fun _ => false }

/-- A candidate with protocol `MEEK` that needs a handshake. -/
def candMeek : ITransport :=
  { addr := 4, GetTransportProtocolName := "MEEK", IsConnected := false,
    IsHandshakeRequired := fun _ => true }

/-- An HTTPS client that fails once the cancel flag is set, leaving a note in
`response`, and succeeds otherwise. -/
def clientHonouringCancel : Bool → String → CutOffArguments → String → Bool × String :=
  fun cancel _ _ _ => if cancel then (false, "ABORTED") else (true, "OK")

/-- An HTTPS client for which every request fails. -/
def clientUnreachable : Bool → String → CutOffArguments → String → Bool × String :=
  fun _ _ _ response => (false, response)

/-- A request for `/handshake` with nothing in `response` yet. -/
def sampleArgs : RequestArgs :=
  { requestPath := "/handshake", response := "", useLocalProxy := true,
    additionalHeaders := none, additionalData := none, additionalDataLength := 0 }

/-- Some values for the arguments that the source cuts off. -/
def sampleRest : CutOffArguments := { values := ["8080", "/handshake"] }

/-- A registry whose two transports are both eligible against `vpnDown`. -/
def tieWorld : World := { httpsRequest := clientUnreachable, registry := [candSsh, candOssh] }

/-- A registry with the current protocol, a handshake transport and two eligible ones. -/
def mixedWorld : World :=
  { httpsRequest := clientHonouringCancel, registry := [candVpn, candSsh, candMeek, candOssh] }

/-- A registry without transports. -/
def emptyWorld : World := { httpsRequest := clientUnreachable, registry := [] }

/-! ## GetTempTransport -/

/-- C1, evaluated on the code: for a registry of two transports that are both
eligible against the current transport, `GetTempTransport` returns the second
and deletes nothing, so the first one is neither returned nor released:
released (0) plus returned (1) is 1, while 2 were enumerated. -/
theorem GetTempTransport_tie_leaves_first_unreleased :
    ∃ r, GetTempTransport tieWorld (some vpnDown) sampleSession = Except.ok r ∧
      r.1.map (fun t => t.addr) = some candOssh.addr ∧
      released r.2 = [] ∧
      (released r.2).length + returnedCount r.1 = 1 ∧
      tieWorld.registry.length = 2 ∧
      eligible vpnDown sampleSession candSsh ∧ eligible vpnDown sampleSession candOssh :=
  ⟨_, rfl, rfl, rfl, rfl, rfl, by decide, by decide⟩

/-- C2: for a non-null current transport, `GetTempTransport` returns; what it
returns is the last element of the enumeration that is eligible (the
enumeration splits as `pre ++ t :: post` with `t` eligible and nothing eligible
in `post`), and it returns the null pointer exactly when no enumerated
transport is eligible. -/
theorem GetTempTransport_returns_last_eligible (w : World) (cur : ITransport)
    (si : SessionInfo) :
    ∃ r, GetTempTransport w (some cur) si = Except.ok r ∧
      r.1 = (w.registry.filter (fun c => decide (eligible cur si c))).getLast? ∧
      (∀ t, r.1 = some t →
        ∃ pre post, w.registry = pre ++ t :: post ∧ eligible cur si t ∧
          ∀ u ∈ post, ¬ eligible cur si u) ∧
      (r.1 = none ↔ ∀ c ∈ w.registry, ¬ eligible cur si c) := by
  refine ⟨_, GetTempTransport_some w cur si, rfl, ?_, ?_⟩
  · intro t ht
    obtain ⟨pre, post, hl, hp, hpost⟩ := getLast?_filter_split _ _ t ht
    refine ⟨pre, post, hl, by simpa using hp, ?_⟩
    intro u hu
    simpa using hpost u hu
  · simp [List.getLast?_eq_none_iff, List.filter_eq_nil_iff]

/-- C3: for a non-null current transport, a pointer returned by
`GetTempTransport` is one of the enumerated transports, its protocol name
differs from the current transport's and it needs no handshake for the session
info; an enumerated or other transport with the current protocol name, or one
that needs a handshake, is never the one returned. -/
theorem GetTempTransport_returns_only_eligible (w : World) (cur : ITransport)
    (si : SessionInfo) :
    ∃ r, GetTempTransport w (some cur) si = Except.ok r ∧
      (∀ t, r.1 = some t →
        t ∈ w.registry ∧
        t.GetTransportProtocolName ≠ cur.GetTransportProtocolName ∧
        t.IsHandshakeRequired si = false) ∧
      (∀ c : ITransport,
        (c.GetTransportProtocolName = cur.GetTransportProtocolName ∨
          c.IsHandshakeRequired si = true) → r.1 ≠ some c) := by
  have key : ∀ t, (w.registry.filter (fun c => decide (eligible cur si c))).getLast? = some t →
      t ∈ w.registry ∧ eligible cur si t := by
    intro t ht
    have hm := List.mem_of_getLast?_eq_some ht
    simpa using List.mem_filter.mp hm
  refine ⟨_, GetTempTransport_some w cur si, ?_, ?_⟩
  · intro t ht
    obtain ⟨hm, he⟩ := key t ht
    exact ⟨hm, he.1, he.2⟩
  · intro c hc ht
    obtain ⟨_, he⟩ := key c ht
    rcases hc with hc | hc
    · exact he.1 hc
    · rw [he.2] at hc; exact Bool.noConfusion hc

/-- C8: for a non-null current transport, every enumerated transport that fails
the eligibility predicate has been deleted when `GetTempTransport` returns, and
when it returns the null pointer every enumerated transport has been deleted. -/
theorem GetTempTransport_releases_ineligible (w : World) (cur : ITransport)
    (si : SessionInfo) :
    ∃ r, GetTempTransport w (some cur) si = Except.ok r ∧
      (∀ c ∈ w.registry, ¬ eligible cur si c → c.addr ∈ released r.2) ∧
      (r.1 = none → ∀ c ∈ w.registry, c.addr ∈ released r.2) := by
  have hrel : ∀ c ∈ w.registry, ¬ eligible cur si c →
      c.addr ∈ released (Event.newAll ::
        (w.registry.filter (fun c => decide (¬ eligible cur si c))).map
          (fun c => Event.delete c.addr)) := by
    intro c hc hne
    rw [released_GetTempTransport]
    exact List.mem_map.mpr ⟨c, List.mem_filter.mpr ⟨hc, by simpa using hne⟩, rfl⟩
  refine ⟨_, GetTempTransport_some w cur si, hrel, ?_⟩
  intro hnone c hc
  have hall : ∀ c ∈ w.registry, ¬ eligible cur si c := by
    simpa [List.getLast?_eq_none_iff, List.filter_eq_nil_iff] using hnone
  exact hrel c hc (hall c hc)

/-- C9: when the enumerated transports are distinct objects and the current
transport is non-null, `GetTempTransport` deletes no object twice, deletes only
enumerated objects, and the object it returns has not been deleted. -/
theorem GetTempTransport_no_double_release (w : World) (cur : ITransport)
    (si : SessionInfo) (hdistinct : (w.registry.map (fun c => c.addr)).Nodup) :
    ∃ r, GetTempTransport w (some cur) si = Except.ok r ∧
      (released r.2).Nodup ∧
      (∀ a ∈ released r.2, a ∈ w.registry.map (fun c => c.addr)) ∧
      (∀ t, r.1 = some t → t.addr ∉ released r.2) := by
  have hsub : List.Sublist
      ((w.registry.filter (fun c => decide (¬ eligible cur si c))).map (fun c => c.addr))
      (w.registry.map (fun c => c.addr)) :=
    List.Sublist.map _ (List.filter_sublist _)
  refine ⟨_, GetTempTransport_some w cur si, ?_, ?_, ?_⟩
  · rw [released_GetTempTransport]
    exact hdistinct.sublist hsub
  · rw [released_GetTempTransport]
    intro a ha
    exact hsub.subset ha
  · intro t ht
    rw [released_GetTempTransport]
    intro hmem
    obtain ⟨c, hc, hca⟩ := List.mem_map.mp hmem
    obtain ⟨hcreg, hcne⟩ := List.mem_filter.mp hc
    have htm := List.mem_filter.mp (List.mem_of_getLast?_eq_some ht)
    have heq : c = t := List.inj_on_of_nodup_map hdistinct hcreg htm.1 hca
    subst heq
    have h1 : eligible cur si c := by simpa using htm.2
    have h2 : ¬ eligible cur si c := by simpa using hcne
    exact h2 h1

/-- C9 at a concrete registry of four distinct transports. -/
theorem GetTempTransport_no_double_release_witness :
    (mixedWorld.registry.map (fun c => c.addr)).Nodup ∧
    ∃ r, GetTempTransport mixedWorld (some vpnDown) sampleSession = Except.ok r ∧
      (released r.2).Nodup ∧
      (∀ a ∈ released r.2, a ∈ mixedWorld.registry.map (fun c => c.addr)) ∧
      (∀ t, r.1 = some t → t.addr ∉ released r.2) :=
  ⟨by decide, GetTempTransport_no_double_release mixedWorld vpnDown sampleSession (by decide)⟩

/-- C10, evaluated on the code: with a null current transport and at least one
enumerated transport, the first evaluation of the loop condition calls
`GetTransportProtocolName` through the null pointer, so `GetTempTransport`
faults instead of returning; only for an empty enumeration does it return
(the null pointer). -/
theorem GetTempTransport_null_current_faults
    (client : Bool → String → CutOffArguments → String → Bool × String)
    (c : ITransport) (rest : List ITransport) (si : SessionInfo) :
    GetTempTransport { httpsRequest := client, registry := c :: rest } none si =
        Except.error Fault.nullDereference ∧
      GetTempTransport { httpsRequest := client, registry := [] } none si =
        Except.ok (none, [Event.newAll]) :=
  ⟨rfl, rfl⟩

/-! ## MakeRequest -/

/-- C5, evaluated on the code: with no connected transport (null, or a transport
that is not connected) `MakeRequest` returns `true` although no request was
made, for every HTTPS client and registry, among them a client for which every
request fails and an empty registry; `response` is left as it was. -/
theorem MakeRequest_not_connected_returns_true (w : World) (cancel : Bool)
    (t : ITransport) (si : SessionInfo) (args : RequestArgs) (rest : CutOffArguments) :
    (MakeRequest w cancel none si args rest).ret = true ∧
      (MakeRequest w cancel none si args rest).response = args.response ∧
      (MakeRequest w cancel (some { t with IsConnected := false }) si args rest).ret = true ∧
      (MakeRequest w cancel (some { t with IsConnected := false }) si args rest).response =
        args.response ∧
      (MakeRequest emptyWorld false none sampleSession sampleArgs sampleRest).ret = true ∧
      (MakeRequest emptyWorld false none sampleSession sampleArgs sampleRest).trace = [] :=
  ⟨rfl, rfl, rfl, rfl, rfl, rfl⟩

/-- C6, evaluated on the code: with no connected transport (null, or a transport
that is not connected) `MakeRequest` makes no HTTPS request at all, to no
address and with no flag, so neither port 8080 nor port 443 is tried, for every
HTTPS client. -/
theorem MakeRequest_not_connected_makes_no_request (w : World) (cancel : Bool)
    (t : ITransport) (si : SessionInfo) (args : RequestArgs) (rest : CutOffArguments) :
    (MakeRequest w cancel none si args rest).trace = [] ∧
      (MakeRequest w cancel (some { t with IsConnected := false }) si args rest).trace = [] ∧
      (∀ c a, Event.httpsRequest c a ∉ (MakeRequest w cancel none si args rest).trace) ∧
      (∀ c a, Event.httpsRequest c a ∉
        (MakeRequest w cancel (some { t with IsConnected := false }) si args rest).trace) :=
  ⟨rfl, rfl, by simp [MakeRequest], by simp [MakeRequest]⟩

end ServerRequest
